/-
Verification of the serverfiles library (biolab/serverfiles) against its
natural-language specification.

Shallow embedding of `serverfiles/__init__.py`:
  * a remote `Path` is a list of string segments;
  * `FileInfo` models the JSON `.info` dictionaries with the keys this
    module reads (`datetime`, `compression`, `tags`, `title`); JSON
    (de)serialization is abstracted away: functions receive and store the
    parsed structure directly;
  * Python exceptions are modelled by an explicit error type `PyErr`;
    fallible operations return `Except PyErr`;
  * the local filesystem is an association list from (joined) path strings
    to nodes; the remote server is a finite directory tree;
  * floats in the download progress loop are modelled by exact arithmetic:
    `lastchunkreport` is kept in units of 1/10000 (it starts at 0.0001 and
    grows in steps of 0.01), and the comparison
    `readb / size > lastchunkreport + 0.01` becomes
    `10000 * readb > size * (lcr + 100)`.  In the source these are IEEE
    doubles, but every comparison in the loop has a margin of ~10^-2,
    fourteen orders of magnitude above double rounding error, so the
    rational model is behaviourally identical.
-/
import Mathlib

namespace Serverfiles

/-! ## Basic data model -/

/-- A remote/local path: an ordered sequence of string segments. -/
abbrev Path := List String

/-- The parsed contents of a `.info` JSON dictionary, restricted to the keys
the module reads (`datetime`, `compression`, `tags`, `title`).  A field of
`none` models the key being absent from the dictionary. -/
structure FileInfo where
  datetime : Option String := none
  compression : Option String := none
  tags : Option (List String) := none
  title : Option String := none
deriving DecidableEq, Repr

/-- The empty info dictionary `{}`. -/
def FileInfo.empty : FileInfo := {}

/-- Python exceptions raised by the modelled code paths. -/
inductive PyErr where
  | fileNotFound   -- FileNotFoundError
  | keyError       -- KeyError
  | valueError     -- ValueError (json decode errors, strptime failures)
  | osError        -- OSError from filesystem operations
  | ioError        -- generic IOError from bad HTTP status
  | extractError   -- tarfile/gzip/bz2 failures on invalid archive data
deriving DecidableEq, Repr

/-! ## `_is_prefix` (source lines 131-137) -/

/-- `_is_prefix(pref, whole)`: length check, then pairwise comparison of
`zip(pref, whole)`. -/
def _is_prefix (pref whole : Path) : Bool :=
  if pref.length > whole.length then false
  else (List.zip pref whole).all (fun ab => ab.1 == ab.2)

/-- Segment-wise prefix as the spec words it: the prefix length is at most
the candidate's length and every segment up to that length is equal
(equivalently, the candidate's first `pref.length` segments are `pref`). -/
def specSegPrefix (pref whole : Path) : Bool :=
  decide (pref.length ≤ whole.length) && (whole.take pref.length == pref)

/-! ## `_search` (source lines 498-519) -/

/-- `str.startswith(pre)` over the character list (kernel-friendly). -/
def strStartsWith (s pre : String) : Bool :=
  pre.toList.isPrefixOf s.toList

/-- `str.endswith(post)` over the character list (kernel-friendly). -/
def strEndsWith (s post : String) : Bool :=
  post.toList.isSuffixOf s.toList

/-- Python's `s in target` substring containment. -/
def strContains (target s : String) : Bool :=
  decide (s.toList <:+: target.toList)

/-- The search text built for one catalog entry (source lines 502-506):
space-joined tags, then the title, then the space-joined path segments,
each part included per its flag, concatenated with no separator between
parts; lowercased unless case-sensitive. -/
def searchTarget (path : Path) (info : FileInfo) (case_sensitive in_tag in_title in_name : Bool) : String :=
  let t0 := if in_tag then " ".intercalate (info.tags.getD []) else ""
  let t1 := t0 ++ (if in_title then info.title.getD "" else "")
  let t2 := t1 ++ (if in_name then " ".intercalate path else "")
  if !case_sensitive then t2.toLower else t2

/-- The per-entry match test (source lines 508-514): every query substring,
lowercased unless case-sensitive, occurs in the search text. -/
def searchMatch (path : Path) (info : FileInfo) (sstrings : List String)
    (case_sensitive in_tag in_title in_name : Bool) : Bool :=
  sstrings.all fun s =>
    strContains (searchTarget path info case_sensitive in_tag in_title in_name)
      (if !case_sensitive then s.toLower else s)

/-- `_search(si, sstrings, ...)`: iterate the mapping in order, appending
each path whose entry matches. -/
def _search (si : List (Path × FileInfo)) (sstrings : List String)
    (case_sensitive in_tag in_title in_name : Bool) : List Path :=
  match si with
  | [] => []
  | (path, info) :: rest =>
    if searchMatch path info sstrings case_sensitive in_tag in_title in_name then
      path :: _search rest sstrings case_sensitive in_tag in_title in_name
    else
      _search rest sstrings case_sensitive in_tag in_title in_name

/-- The spec's description of the predicate, §4.3: build the search text by
concatenating (per enabled flag) the space-joined tags, the title field and
the space-joined path segments; lowercase both sides unless case-sensitive;
select iff every query substring occurs as a contiguous substring. -/
def specSearchSelects (entry : Path × FileInfo) (sstrings : List String)
    (caseSensitive inTag inTitle inName : Bool) : Bool :=
  let text :=
    (if inTag then " ".intercalate (entry.2.tags.getD []) else "") ++
    (if inTitle then entry.2.title.getD "" else "") ++
    (if inName then " ".intercalate entry.1 else "")
  let text := if caseSensitive then text else text.toLower
  sstrings.all fun s => strContains text (if caseSensitive then s else s.toLower)

/-! ## Datetime parsing and `needs_update` (source lines 445-460) -/

/-- Days in a month, with Gregorian leap years, as `datetime` validates. -/
def daysInMonth (y m : Nat) : Nat :=
  if m = 2 then
    if y % 4 = 0 ∧ (y % 100 ≠ 0 ∨ y % 400 = 0) then 29 else 28
  else if m = 4 ∨ m = 6 ∨ m = 9 ∨ m = 11 then 30
  else 31

def isDigit (c : Char) : Bool := '0' ≤ c ∧ c ≤ '9'

def digitsToNat (cs : List Char) : Nat :=
  cs.foldl (fun acc c => acc * 10 + (c.toNat - '0'.toNat)) 0

/-- `datetime.strptime(s, "%Y-%m-%d %H:%M:%S")` for a canonical
zero-padded string: the whole input must match the pattern
`DDDD-DD-DD DD:DD:DD` and the fields must form a valid datetime; the
result is the timestamp encoded in a mixed radix so that comparison of the
encodings agrees with comparison of datetimes.  Returns `none` where
Python raises `ValueError`. -/
def strptime (s : String) : Option Nat :=
  match s.toList with
  | [y1, y2, y3, y4, d1, m1, m2, d2, dd1, dd2, sp, h1, h2, c1, mi1, mi2, c2, s1, s2] =>
    if (isDigit y1 ∧ isDigit y2 ∧ isDigit y3 ∧ isDigit y4 ∧ d1 = '-' ∧
        isDigit m1 ∧ isDigit m2 ∧ d2 = '-' ∧ isDigit dd1 ∧ isDigit dd2 ∧
        sp = ' ' ∧ isDigit h1 ∧ isDigit h2 ∧ c1 = ':' ∧ isDigit mi1 ∧
        isDigit mi2 ∧ c2 = ':' ∧ isDigit s1 ∧ isDigit s2 : Bool) then
      let y := digitsToNat [y1, y2, y3, y4]
      let mo := digitsToNat [m1, m2]
      let d := digitsToNat [dd1, dd2]
      let h := digitsToNat [h1, h2]
      let mi := digitsToNat [mi1, mi2]
      let se := digitsToNat [s1, s2]
      if (1 ≤ mo ∧ mo ≤ 12 ∧ 1 ≤ d ∧ d ≤ daysInMonth y mo ∧
          h ≤ 23 ∧ mi ≤ 59 ∧ se ≤ 59 : Bool) then
        some (((((y * 13 + mo) * 32 + d) * 24 + h) * 60 + mi) * 60 + se)
      else none
    else none
  | _ => none

/-- `info["datetime"]`: raises `KeyError` when the key is absent. -/
def getDatetimeKey (info : FileInfo) : Except PyErr String :=
  match info.datetime with
  | some s => .ok s
  | none => .error .keyError

/-- `datetime.strptime(v[:19], dt_fmt)`: truncate to 19 characters then
parse; a parse failure raises `ValueError`. -/
def parseDt (v : String) : Except PyErr Nat :=
  match strptime (String.mk (v.toList.take 19)) with
  | some t => .ok t
  | none => .error .valueError

/-- The body of the `try` block in `needs_update` (source lines 450-456):
read the local info, parse its `datetime`, fetch and parse the remote
`datetime`, and compare.  `localRead` is the outcome of `self.info(*path)`
(`FileNotFoundError` when the sidecar is absent, `ValueError` when its JSON
is malformed); `remote` is what `self.serverfiles.info(*path)` returned
(an empty dictionary when the remote sidecar is missing). -/
def needs_update_body (localRead : Except PyErr FileInfo) (remote : FileInfo) :
    Except PyErr Bool :=
  match localRead with
  | .error e => .error e
  | .ok linfo =>
    match getDatetimeKey linfo with
    | .error e => .error e
    | .ok lv =>
      match parseDt lv with
      | .error e => .error e
      | .ok dt_local =>
        match getDatetimeKey remote with
        | .error e => .error e
        | .ok rv =>
          match parseDt rv with
          | .error e => .error e
          | .ok dt_server => .ok (decide (dt_server > dt_local))

/-- `needs_update` (source lines 445-460): run the body and catch exactly
`FileNotFoundError` and `KeyError`, both yielding `True`.  Any other
exception (notably `ValueError`) propagates to the caller. -/
def needs_update (localRead : Except PyErr FileInfo) (remote : FileInfo) :
    Except PyErr Bool :=
  match needs_update_body localRead remote with
  | .error .fileNotFound => .ok true
  | .error .keyError => .ok true
  | r => r

/-! ## The remote server model and `ServerFiles` (source lines 157-303)

The remote server is a finite directory tree.  A GET of a directory path
returns an HTML listing whose anchor hrefs are the entry names (directories
with a trailing `/`, and for each file with a sidecar also `name.info`);
`_FindLinksParser` drops hrefs starting with `?`, `/`, `.` or `__`.  A GET
of `__INFO__` returns status 200 with the catalog body when the server has
one, and a non-200 status otherwise.  JSON decoding of response bodies is
abstracted: the model passes the parsed values around directly.  Each
modelled operation returns, besides its result, the updated `_info` state
and the number of HTTP requests issued. -/

inductive Entry where
  | file (name : String) (sidecar : Option FileInfo)
  | dir (name : String) (children : List Entry)

structure Server where
  tree : List Entry
  infoResource : Option (List (Path × FileInfo))

/-- The `self._info` attribute: `None` (not loaded), `False` (the server
has no `__INFO__`), or the parsed dictionary. -/
inductive InfoState where
  | unloaded
  | absent
  | loaded (m : List (Path × FileInfo))
deriving DecidableEq, Repr

/-- Python-dict insertion into an association list: an existing key keeps
its position and gets the new value, a new key is appended. -/
def dictInsert (m : List (Path × FileInfo)) (k : Path) (v : FileInfo) :
    List (Path × FileInfo) :=
  match m with
  | [] => [(k, v)]
  | (k', v') :: rest =>
    if k' == k then (k', v) :: rest else (k', v') :: dictInsert rest k v

/-- `{tuple(a): b for a, b in pairs}`: build a dict from a pair list. -/
def dictOf (l : List (Path × FileInfo)) : List (Path × FileInfo) :=
  l.foldl (fun m kv => dictInsert m kv.1 kv.2) []

/-- `m.get(k)` on the dict. -/
def dictGet (m : List (Path × FileInfo)) (k : Path) : Option FileInfo :=
  (m.find? (fun kv => kv.1 == k)).map (·.2)

/-- `_download_server_info` (source lines 175-182): fetch `__INFO__` once;
status 200 loads the dict, anything else stores `False` ("do not check
again").  Returns the new state and the number of requests issued. -/
def _download_server_info (st : InfoState) (srv : Server) : InfoState × Nat :=
  match st with
  | .unloaded =>
    match srv.infoResource with
    | some pairs => (.loaded (dictOf pairs), 1)
    | none => (.absent, 1)
  | s => (s, 0)

/-- The anchor hrefs of a directory listing, in entry order. -/
def linksOf (entries : List Entry) : List String :=
  entries.flatMap fun e =>
    match e with
    | .file n sc => [n] ++ (match sc with | some _ => [n ++ ".info"] | none => [])
    | .dir n _ => [n ++ "/"]

/-- `_FindLinksParser`'s href filter (source lines 151-153): drop navigation
and hidden links. -/
def keepLink (s : String) : Bool :=
  !(strStartsWith s "?" || strStartsWith s "/" || strStartsWith s "." ||
    strStartsWith s "__")

/-- Resolve a path to the directory it names, if any. -/
def findDir (entries : List Entry) (seg : String) : Option (List Entry) :=
  match entries with
  | [] => none
  | .dir n cs :: rest => if n == seg then some cs else findDir rest seg
  | .file _ _ :: rest => findDir rest seg

def navigate (entries : List Entry) (p : Path) : Option (List Entry) :=
  match p with
  | [] => some entries
  | seg :: rest =>
    match findDir entries seg with
    | some cs => navigate cs rest
    | none => none

/-- The non-recursive part of the scraping branch of `listfiles` (source
lines 190-195): the filtered links of this directory's listing that are
neither subdirectories (trailing `/`) nor `.info` sidecars, as full
paths. -/
def dirFiles (args : Path) (entries : List Entry) : List Path :=
  (((linksOf entries).filter keepLink).filter
    fun f => !(strEndsWith f "/") && !(strEndsWith f ".info")).map
    fun f => args ++ [f]

/-- The recursion of `listfiles` into subdirectory links (source lines
196-201), in link order, with the recursive `listfiles` call inlined (it
always recurses with `recursive=True`): each followed subdirectory
contributes its own GET, its files and its recursive contents.  Returns
the accumulated paths and request count. -/
def walkSubdirs (args : Path) (entries : List Entry) : List Path × Nat :=
  match entries with
  | [] => ([], 0)
  | .file _ _ :: rest => walkSubdirs args rest
  | .dir n children :: rest =>
    if keepLink (n ++ "/") then
      let sub := walkSubdirs (args ++ [n]) children
      let rest' := walkSubdirs args rest
      ((dirFiles (args ++ [n]) children ++ sub.1) ++ rest'.1,
        (1 + sub.2) + rest'.2)
    else walkSubdirs args rest

/-- The HTML-scraping branch of `listfiles` (source lines 190-202) run on
the listing of the directory `entries` at path `args`: one GET for this
listing, its non-`/`, non-`.info` links become files, and when `recursive`
the subdirectory links are followed.  Returns the files and the request
count. -/
def walkDir (args : Path) (entries : List Entry) (recursive : Bool) :
    List Path × Nat :=
  let files := dirFiles args entries
  if recursive then
    let sub := walkSubdirs args entries
    (files ++ sub.1, 1 + sub.2)
  else (files, 1)

/-- `ServerFiles.listfiles` (source lines 184-202): refresh `_info`; a
non-empty loaded dict answers by prefix-filtering its keys (`if
self._info:` — so an *empty* loaded dict falls through to scraping), any
other state scrapes the directory listing over HTTP. -/
def ServerFiles.listfiles (st : InfoState) (srv : Server) (args : Path)
    (recursive : Bool) : List Path × InfoState × Nat :=
  let s1 := _download_server_info st srv
  match s1.1 with
  | .loaded (kv :: rest) =>
    ((((kv :: rest)).map Prod.fst).filter (fun a => _is_prefix args a),
      .loaded (kv :: rest), s1.2)
  | st1 =>
    match navigate srv.tree args with
    | some entries =>
      let w := walkDir args entries recursive
      (w.1, st1, s1.2 + w.2)
    | none => ([], st1, s1.2 + 1)

/-- GET of `path[:-1] + (last + ".info")`: the sidecar body served for the
file named `name` in this directory, if any. -/
def findSidecar (entries : List Entry) (name : String) : Option FileInfo :=
  match entries with
  | [] => none
  | .file n sc :: rest => if n == name then sc else findSidecar rest name
  | .dir _ _ :: rest => findSidecar rest name

/-- `ServerFiles.info` (source lines 273-287): a non-empty loaded dict
answers `dict.get(path, {})`; otherwise GET the `.info` sidecar resource,
non-200 yielding the empty dictionary.  (An empty `path` raises IndexError
in the source; the model returns the empty dictionary without a request —
no modelled caller passes an empty path.) -/
def ServerFiles.info (st : InfoState) (srv : Server) (path : Path) :
    FileInfo × InfoState × Nat :=
  let s1 := _download_server_info st srv
  match s1.1 with
  | .loaded (kv :: rest) =>
    ((dictGet (kv :: rest) path).getD .empty, .loaded (kv :: rest), s1.2)
  | st1 =>
    match path.getLast? with
    | none => (.empty, st1, s1.2)
    | some last =>
      let body :=
        match navigate srv.tree path.dropLast with
        | some entries => findSidecar entries last
        | none => none
      (body.getD .empty, st1, s1.2 + 1)

/-- `ServerFiles.allinfo` (source lines 250-258): list the files, then look
up each file's info, collecting a dict. -/
def ServerFiles.allinfo (st : InfoState) (srv : Server) (args : Path)
    (recursive : Bool) : List (Path × FileInfo) × InfoState × Nat :=
  let s1 := _download_server_info st srv
  let l := ServerFiles.listfiles s1.1 srv args recursive
  l.1.foldl
    (fun acc p =>
      let r := ServerFiles.info acc.2.1 srv p
      (dictInsert acc.1 p r.1, r.2.1, acc.2.2 + r.2.2))
    ([], l.2.1, s1.2 + l.2.2)

/-- `ServerFiles.search` (source lines 260-271): when `_info` is `None` or
`False`, assign `self._info = self.allinfo()` (the full catalog), then run
the shared search predicate over `_info`. -/
def ServerFiles.search (st : InfoState) (srv : Server) (sstrings : List String)
    (case_sensitive in_tag in_title in_name : Bool) : List Path × InfoState × Nat :=
  match st with
  | .loaded m =>
    (_search m sstrings case_sensitive in_tag in_title in_name, .loaded m, 0)
  | st0 =>
    let a := ServerFiles.allinfo st0 srv [] true
    (_search a.1 sstrings case_sensitive in_tag in_title in_name, .loaded a.1, a.2.2)

/-! ## `ServerFiles.download` progress reporting (source lines 204-248)

`lastchunkreport` starts at `0.0001` and grows in steps of `0.01`; the
model keeps it in units of `1/10000`, so it starts at `1` and grows in
steps of `100`, and `float(readb) / size > lastchunkreport + 0.01` becomes
`10000 * readb > size * (lcr + 100)`. -/

/-- The inner `while size and float(readb)/size > lastchunkreport+0.01`
loop (source lines 231-234): returns the final `lastchunkreport` and the
number of callback invocations. -/
def reportLoop (readb size lcr : Nat) : Nat × Nat :=
  if h : size ≠ 0 ∧ size * (lcr + 100) < 10000 * readb then
    let r := reportLoop readb size (lcr + 100)
    (r.1, r.2 + 1)
  else (lcr, 0)
termination_by 10000 * readb - size * lcr
decreasing_by
  have h1 : size * (lcr + 100) = size * lcr + size * 100 := by ring
  have h2 : 0 < size := Nat.pos_of_ne_zero h.1
  omega

/-- Truthiness of the `size` local after `int()` conversion: a missing
`content-length` header leaves it `None`, a header of `"0"` converts to
the falsy `0`. -/
def sizeTruthy : Option Nat → Bool
  | some s => s != 0
  | none => false

/-- The `for buf in response.iter_content(chunksize)` loop (source lines
229-235): accumulate `readb`, run the report loop after each chunk.
Returns the final `readb`, the final `lastchunkreport` and the number of
callback invocations. -/
def streamChunks (chunks : List Nat) (size : Option Nat) (readb lcr : Nat) :
    Nat × Nat × Nat :=
  match chunks with
  | [] => (readb, lcr, 0)
  | c :: rest =>
    let readb' := readb + c
    let r := reportLoop readb' (size.getD 0) lcr
    let r' := streamChunks rest size readb' r.1
    (r'.1, r'.2.1, r.2 + r'.2.2)

/-- The total number of `callback()` invocations of one completed
`ServerFiles.download` call with a callback supplied, as a function of the
body's chunk sizes and the `content-length` header: the streaming loop's
invocations, then 99 more when `size` is falsy (source lines 243-245),
then the one unconditional invocation (source lines 247-248). -/
def downloadCallbacks (chunks : List Nat) (size : Option Nat) : Nat :=
  let s := streamChunks chunks size 0 1
  s.2.2 + (if sizeTruthy size then 0 else 99) + 1

/-! ## The local filesystem model and `LocalFiles` (source lines 331-495)

The local filesystem is an association list from joined path strings to
nodes.  A node is a plain file (with its abstracted byte content), a
written `.info` sidecar (holding the `FileInfo` that `json.dump` stored),
or a directory.  Decompression is abstracted by content constructors;
whether archive data is valid is the `extractOk` parameter — when it is
false the `tarfile`/`gzip`/`bz2` call raises and the exception propagates
out of `download`. -/

inductive CData where
  | raw (b : String)
  | gunzipped (b : String)
  | bunzipped (b : String)
deriving DecidableEq, Repr

inductive Node where
  | file (c : CData)
  | infoFile (i : FileInfo)
  | dir
deriving DecidableEq, Repr

abbrev FS := List (String × Node)

def FS.get (fs : FS) (p : String) : Option Node :=
  (fs.find? (fun q => q.1 == p)).map (·.2)

def FS.set (fs : FS) (p : String) (n : Node) : FS :=
  (p, n) :: fs.filter (fun q => q.1 != p)

/-- `os.path.exists`. -/
def FS.pathExists (fs : FS) (p : String) : Bool :=
  (FS.get fs p).isSome

/-- `os.remove`. -/
def FS.removePath (fs : FS) (p : String) : FS :=
  fs.filter (fun q => q.1 != p)

/-- `shutil.rmtree`: removes the directory and everything below it. -/
def FS.rmtree (fs : FS) (p : String) : FS :=
  fs.filter (fun q => q.1 != p && !(strStartsWith q.1 (p ++ "/")))

/-- `os.path.isdir`. -/
def FS.isdir (fs : FS) (p : String) : Bool :=
  FS.get fs p == some .dir

/-- `os.path.isfile`. -/
def FS.isfile (fs : FS) (p : String) : Bool :=
  match FS.get fs p with
  | some (.file _) => true
  | some (.infoFile _) => true
  | _ => false

/-- `LocalFiles.localpath` (source lines 360-362): join the cache root
(already user-expanded) with the path segments. -/
def localpath (root : String) (path : Path) : String :=
  "/".intercalate (root :: path)

/-- `LocalFiles.info` (source lines 432-435): `json.load` of the local
sidecar — `FileNotFoundError` when it is absent, `ValueError` when its
content is not valid JSON (a plain-file node models a malformed sidecar). -/
def LocalFiles.info (root : String) (fs : FS) (path : Path) : Except PyErr FileInfo :=
  match FS.get fs (localpath root path ++ ".info") with
  | some (.infoFile i) => .ok i
  | some _ => .error .valueError
  | none => .error .fileNotFound

/-- `needs_update` applied to an actual local filesystem state. -/
def LocalFiles.needs_update (root : String) (fs : FS) (path : Path)
    (remote : FileInfo) : Except PyErr Bool :=
  Serverfiles.needs_update (LocalFiles.info root fs path) remote

/-- The outcome of one `LocalFiles.download` call: the filesystem after
the call, the exception it raised (if any), and how many times it invoked
`self.serverfiles.download` (each such invocation is one network fetch
and, when a callback is supplied, one full round of progress-callback
invocations per `downloadCallbacks`). -/
structure DownloadResult where
  fs : FS
  err : Option PyErr
  fetches : Nat
deriving DecidableEq, Repr

/-- `LocalFiles.download` (source lines 364-401).  `remoteInfo` is what
`self.serverfiles.info(*path)` returned, `remoteBytes` the downloaded body.
Steps: decide `extract`; fetch to `target + ".tmp"` when extracting, else
to `target`; persist the sidecar; dispatch on the `compression` value
(an unrecognized value matches no branch); finally `os.remove` the `.tmp`
file — the remove is unconditional in the extract path, and is reached
unless an extraction branch raised. -/
def LocalFiles.download (root : String) (fs : FS) (path : Path)
    (remoteInfo : FileInfo) (remoteBytes : String) (extractOk : Bool)
    (extract : Bool) : DownloadResult :=
  let extract2 := extract && remoteInfo.compression.isSome
  let target := localpath root path
  let fs1 := FS.set fs (if extract2 then target ++ ".tmp" else target)
    (.file (.raw remoteBytes))
  let fs2 := FS.set fs1 (target ++ ".info") (.infoFile remoteInfo)
  if !extract2 then ⟨fs2, none, 1⟩
  else
    let c := remoteInfo.compression.getD ""
    if c == "tar.gz" || c == "tar.bz2" then
      if extractOk then
        ⟨FS.removePath (FS.set fs2 target .dir) (target ++ ".tmp"), none, 1⟩
      else ⟨fs2, some .extractError, 1⟩
    else if c == "gz" then
      if extractOk then
        ⟨FS.removePath (FS.set fs2 target (.file (.gunzipped remoteBytes)))
          (target ++ ".tmp"), none, 1⟩
      else ⟨fs2, some .extractError, 1⟩
    else if c == "bz2" then
      if extractOk then
        ⟨FS.removePath (FS.set fs2 target (.file (.bunzipped remoteBytes)))
          (target ++ ".tmp"), none, 1⟩
      else ⟨fs2, some .extractError, 1⟩
    else
      ⟨FS.removePath fs2 (target ++ ".tmp"), none, 1⟩

/-- The outcome of one `LocalFiles.localpath_download` call. -/
structure LPDResult where
  pathname : String
  fs : FS
  err : Option PyErr
  fetches : Nat
deriving DecidableEq, Repr

/-- `LocalFiles.localpath_download` (source lines 403-412): download only
when the local path does not exist yet, then return the local path. -/
def LocalFiles.localpath_download (root : String) (fs : FS) (path : Path)
    (remoteInfo : FileInfo) (remoteBytes : String) (extractOk : Bool)
    (extract : Bool) : LPDResult :=
  let pathname := localpath root path
  if FS.pathExists fs pathname then ⟨pathname, fs, none, 0⟩
  else
    let r := LocalFiles.download root fs path remoteInfo remoteBytes extractOk extract
    ⟨pathname, r.fs, r.err, r.fetches⟩

/-- `os.remove`/`shutil.rmtree` with failure injection: paths in
`failDelete` raise `OSError` (leaving the filesystem unchanged), any other
path is deleted. -/
def osDelete (fs : FS) (failDelete : List String) (p : String) (isTree : Bool) :
    Except PyErr FS :=
  if failDelete.contains p then .error .osError
  else .ok (if isTree then FS.rmtree fs p else FS.removePath fs p)

/-- `LocalFiles.remove` (source lines 481-495): raise `FileNotFoundError`
when the sidecar does not exist; otherwise run, inside a single
`try/except OSError`, the deletion of the primary artifact followed by the
deletion of the sidecar.  The returned flag records whether an `OSError`
was caught (and printed); a caught error aborts the remaining deletions of
the `try` block but is not re-raised. -/
def LocalFiles.remove (root : String) (fs : FS) (failDelete : List String)
    (path : Path) : Except PyErr (FS × Bool) :=
  let p := localpath root path
  if FS.pathExists fs (p ++ ".info") then
    let r1 : Except PyErr FS :=
      if FS.isdir fs p then osDelete fs failDelete p true
      else if FS.isfile fs p then osDelete fs failDelete p false
      else .ok fs
    match r1 with
    | .error _ => .ok (fs, true)
    | .ok fs1 =>
      match osDelete fs1 failDelete (p ++ ".info") false with
      | .error _ => .ok (fs1, true)
      | .ok fs2 => .ok (fs2, false)
  else .error .fileNotFound

/-! ## Helper lemmas about the filesystem model -/

theorem find?_filter_stable (l : FS) (f g : String × Node → Bool)
    (h : ∀ a, g a = true → f a = true) :
    (l.filter f).find? g = l.find? g := by
  induction l with
  | nil => rfl
  | cons a l ih =>
    by_cases hg : g a = true
    · have hf := h a hg
      simp [List.filter, hf, List.find?, hg]
    · rw [Bool.not_eq_true] at hg
      by_cases hf : f a = true
      · simp [List.filter, hf, List.find?, hg, ih]
      · rw [Bool.not_eq_true] at hf
        simp [List.filter, hf, List.find?, hg, ih]

theorem find?_filter_incompatible (l : FS) (f g : String × Node → Bool)
    (h : ∀ a, f a = true → g a = false) :
    (l.filter f).find? g = none := by
  induction l with
  | nil => rfl
  | cons a l ih =>
    by_cases hf : f a = true
    · simp [List.filter, hf, List.find?, h a hf, ih]
    · rw [Bool.not_eq_true] at hf
      simp [List.filter, hf, ih]

theorem FS.get_set_same (fs : FS) (p : String) (n : Node) :
    FS.get (FS.set fs p n) p = some n := by
  simp [FS.get, FS.set, List.find?]

theorem FS.get_set_ne (fs : FS) (p q : String) (n : Node) (h : p ≠ q) :
    FS.get (FS.set fs p n) q = FS.get fs q := by
  have hpq : (p == q) = false := by simp [h]
  unfold FS.get FS.set
  rw [List.find?]
  simp only [hpq]
  rw [find?_filter_stable]
  intro a ha
  simp only [beq_iff_eq] at ha
  simp [bne_iff_ne, ha, Ne.symm h]

theorem FS.get_removePath_same (fs : FS) (p : String) :
    FS.get (FS.removePath fs p) p = none := by
  unfold FS.get FS.removePath
  rw [find?_filter_incompatible]
  · rfl
  · intro a ha
    simp only [bne_iff_ne, ne_eq, decide_not] at ha
    simp only [beq_eq_false_iff_ne, ne_eq]
    intro he
    rw [he] at ha
    simp at ha

theorem FS.get_removePath_ne (fs : FS) (p q : String) (h : p ≠ q) :
    FS.get (FS.removePath fs p) q = FS.get fs q := by
  unfold FS.get FS.removePath
  rw [find?_filter_stable]
  intro a ha
  simp only [beq_iff_eq] at ha
  simp [bne_iff_ne, ha, Ne.symm h]

theorem FS.get_rmtree_same (fs : FS) (p : String) :
    FS.get (FS.rmtree fs p) p = none := by
  unfold FS.get FS.rmtree
  rw [find?_filter_incompatible]
  · rfl
  · intro a ha
    rw [Bool.and_eq_true] at ha
    simp only [bne_iff_ne, ne_eq] at ha
    simp only [beq_eq_false_iff_ne, ne_eq]
    exact ha.1

/-! ## Helper lemmas about path strings -/

theorem string_ne_append_tmp (s : String) : s ++ ".tmp" ≠ s := by
  intro h
  have hl := congrArg String.length h
  rw [String.length_append] at hl
  have h4 : (".tmp" : String).length = 4 := rfl
  omega

theorem string_ne_append_info (s : String) : s ++ ".info" ≠ s := by
  intro h
  have hl := congrArg String.length h
  rw [String.length_append] at hl
  have h5 : (".info" : String).length = 5 := rfl
  omega

theorem string_append_tmp_ne_info (s : String) : s ++ ".tmp" ≠ s ++ ".info" := by
  intro h
  have hl := congrArg String.length h
  rw [String.length_append, String.length_append] at hl
  have h4 : (".tmp" : String).length = 4 := rfl
  have h5 : (".info" : String).length = 5 := rfl
  omega

/-- With extraction requested and an unrecognized `compression` value, the
`download` dispatch matches no branch and the trailing `os.remove` deletes
the `.tmp` file. -/
theorem download_unrecognized (root : String) (fs : FS) (path : Path)
    (i : FileInfo) (b : String) (ok : Bool) (c : String)
    (hc : i.compression = some c)
    (h1 : c ≠ "gz") (h2 : c ≠ "bz2") (h3 : c ≠ "tar.gz") (h4 : c ≠ "tar.bz2") :
    LocalFiles.download root fs path i b ok true =
      ⟨FS.removePath
        (FS.set (FS.set fs (localpath root path ++ ".tmp") (.file (.raw b)))
          (localpath root path ++ ".info") (.infoFile i))
        (localpath root path ++ ".tmp"), none, 1⟩ := by
  simp [LocalFiles.download, hc, h1, h2, h3, h4]

/-- C1 (corrected): with extraction requested and a `compression` value
outside the four recognized ones, extraction is a no-op dispatch but the
trailing `os.remove` still deletes the `.tmp` file; after the call the
sidecar holds the remote info while NEITHER the canonical target NOR the
`.tmp` file exists (the downloaded bytes are lost) — contrary to the
claim, the `.tmp` file does not remain. -/
theorem c1_unrecognized_compression_removes_tmp (root : String) (fs : FS)
    (path : Path) (i : FileInfo) (b : String) (ok : Bool) (c : String)
    (hc : i.compression = some c)
    (h1 : c ≠ "gz") (h2 : c ≠ "bz2") (h3 : c ≠ "tar.gz") (h4 : c ≠ "tar.bz2")
    (h0 : FS.pathExists fs (localpath root path) = false) :
    (LocalFiles.download root fs path i b ok true).err = none ∧
    FS.get (LocalFiles.download root fs path i b ok true).fs
      (localpath root path ++ ".info") = some (.infoFile i) ∧
    FS.pathExists (LocalFiles.download root fs path i b ok true).fs
      (localpath root path ++ ".tmp") = false ∧
    FS.pathExists (LocalFiles.download root fs path i b ok true).fs
      (localpath root path) = false := by
  rw [download_unrecognized root fs path i b ok c hc h1 h2 h3 h4]
  refine ⟨rfl, ?_, ?_, ?_⟩
  · rw [FS.get_removePath_ne _ _ _ (string_append_tmp_ne_info _)]
    exact FS.get_set_same ..
  · unfold FS.pathExists
    rw [FS.get_removePath_same]
    rfl
  · unfold FS.pathExists
    rw [FS.get_removePath_ne _ _ _ (string_ne_append_tmp _),
      FS.get_set_ne _ _ _ _ (string_ne_append_info _),
      FS.get_set_ne _ _ _ _ (string_ne_append_tmp _)]
    exact h0

/-- C1 witness: a concrete download with `compression` value `zip`. -/
theorem c1_unrecognized_compression_removes_tmp_witness :
    (LocalFiles.download "r" [] ["d", "f"]
      { compression := some "zip" } "B" true true).err = none ∧
    FS.get (LocalFiles.download "r" [] ["d", "f"]
      { compression := some "zip" } "B" true true).fs
      (localpath "r" ["d", "f"] ++ ".info") =
      some (.infoFile { compression := some "zip" }) ∧
    FS.pathExists (LocalFiles.download "r" [] ["d", "f"]
      { compression := some "zip" } "B" true true).fs
      (localpath "r" ["d", "f"] ++ ".tmp") = false ∧
    FS.pathExists (LocalFiles.download "r" [] ["d", "f"]
      { compression := some "zip" } "B" true true).fs
      (localpath "r" ["d", "f"]) = false :=
  c1_unrecognized_compression_removes_tmp "r" [] ["d", "f"]
    { compression := some "zip" } "B" true "zip" rfl
    (by decide) (by decide) (by decide) (by decide) rfl

/-- C1 counterexample: at this concrete input the call completes without
an exception and the `.tmp` file does NOT exist afterwards, refuting "the
downloaded bytes remain at the `.tmp`-suffixed location ... the `.tmp`
file is never renamed or removed". -/
theorem c1_claim_false_tmp_is_removed :
    (LocalFiles.download "r" [] ["d", "f"]
      { compression := some "zip" } "B" true true).err = none ∧
    FS.pathExists (LocalFiles.download "r" [] ["d", "f"]
      { compression := some "zip" } "B" true true).fs "r/d/f.tmp" = false :=
  ⟨rfl, rfl⟩

/-- After any `LocalFiles.download` call — whether it returned normally or
raised during extraction — the local `.info` sidecar holds the remote
`FileInfo`: the sidecar write (source line 380) precedes every
decompression step. -/
theorem download_sidecar (root : String) (fs : FS) (path : Path)
    (i : FileInfo) (b : String) (ok extract : Bool) :
    FS.get (LocalFiles.download root fs path i b ok extract).fs
      (localpath root path ++ ".info") = some (.infoFile i) := by
  unfold LocalFiles.download
  dsimp only
  repeat' split
  all_goals
    simp [FS.get_set_same,
      FS.get_removePath_ne _ _ _ (string_append_tmp_ne_info (localpath root path)),
      FS.get_set_ne _ _ _ _ (Ne.symm (string_ne_append_info (localpath root path)))]

/-- C9 (confirmed): when a `LocalFiles.download` raises during extraction
(after the byte transfer succeeded), the `.info` sidecar already exists
and holds the downloaded `FileInfo`: it is persisted after the transfer
and before any decompression step. -/
theorem c9_sidecar_persisted_before_extraction (root : String) (fs : FS)
    (path : Path) (i : FileInfo) (b : String) (ok extract : Bool) (e : PyErr)
    (h : (LocalFiles.download root fs path i b ok extract).err = some e) :
    FS.get (LocalFiles.download root fs path i b ok extract).fs
      (localpath root path ++ ".info") = some (.infoFile i) :=
  download_sidecar root fs path i b ok extract

/-- C9 witness: a concrete download of an invalid `tar.gz` archive — the
call raises, and the sidecar exists with the downloaded info. -/
theorem c9_sidecar_persisted_before_extraction_witness :
    FS.get (LocalFiles.download "r" [] ["d", "f"]
      { compression := some "tar.gz" } "B" false true).fs
      (localpath "r" ["d", "f"] ++ ".info") =
      some (.infoFile { compression := some "tar.gz" }) :=
  c9_sidecar_persisted_before_extraction "r" [] ["d", "f"]
    { compression := some "tar.gz" } "B" false true .extractError rfl

/-- When the `.info` sidecar is absent, neither `isdir` nor `isfile` holds
of the primary artifact only if nothing is recorded at its path. -/
theorem get_none_of_not_dir_file (fs : FS) (p : String)
    (hd : FS.isdir fs p = false) (hf : FS.isfile fs p = false) :
    FS.get fs p = none := by
  cases hg : FS.get fs p with
  | none => rfl
  | some n =>
    cases n with
    | file c => rw [FS.isfile, hg] at hf; exact absurd hf (by simp)
    | infoFile i => rw [FS.isfile, hg] at hf; exact absurd hf (by simp)
    | dir => rw [FS.isdir, hg] at hd; exact absurd hd (by simp)

/-- C4 (corrected): `remove` raises `FileNotFoundError` exactly when the
local `.info` sidecar does not exist.  When it exists, the deletion of the
primary artifact and of the sidecar run inside ONE `try/except OSError`
block: with no filesystem failure both are deleted, but an `OSError`
while deleting the primary artifact is caught and reported and ABORTS the
block before the sidecar deletion — contrary to the claim, the failure
handling is not per-artifact and the sidecar then survives. -/
theorem c4_remove_single_try_block (root : String) (fs : FS)
    (failDelete : List String) (path : Path) :
    (LocalFiles.remove root fs failDelete path = .error .fileNotFound ↔
      FS.pathExists fs (localpath root path ++ ".info") = false) ∧
    (failDelete = [] →
      FS.pathExists fs (localpath root path ++ ".info") = true →
      ∃ fs1, LocalFiles.remove root fs failDelete path = .ok (fs1, false) ∧
        FS.pathExists fs1 (localpath root path) = false ∧
        FS.pathExists fs1 (localpath root path ++ ".info") = false) ∧
    (FS.pathExists fs (localpath root path ++ ".info") = true →
      localpath root path ∈ failDelete →
      (FS.isdir fs (localpath root path) = true ∨
        FS.isfile fs (localpath root path) = true) →
      LocalFiles.remove root fs failDelete path = .ok (fs, true)) := by
  refine ⟨?_, ?_, ?_⟩
  · by_cases h : FS.pathExists fs (localpath root path ++ ".info") = true
    · simp only [LocalFiles.remove, h, if_true]
      constructor
      · intro hc
        exfalso
        revert hc
        split
        · intro hc; cases hc
        · split <;> (intro hc; cases hc)
      · intro hc; cases hc
    · rw [Bool.not_eq_true] at h
      simp [LocalFiles.remove, h]
  · rintro rfl h
    simp only [LocalFiles.remove, h, if_true, osDelete, List.contains,
      List.elem_nil, Bool.false_eq_true, if_false]
    by_cases hd : FS.isdir fs (localpath root path) = true
    · refine ⟨FS.removePath (FS.rmtree fs (localpath root path))
        (localpath root path ++ ".info"), ?_, ?_, ?_⟩
      · simp [hd]
      · unfold FS.pathExists
        rw [FS.get_removePath_ne _ _ _ (string_ne_append_info _),
          FS.get_rmtree_same]
        rfl
      · unfold FS.pathExists
        rw [FS.get_removePath_same]
        rfl
    · rw [Bool.not_eq_true] at hd
      by_cases hf : FS.isfile fs (localpath root path) = true
      · refine ⟨FS.removePath (FS.removePath fs (localpath root path))
          (localpath root path ++ ".info"), ?_, ?_, ?_⟩
        · simp [hd, hf]
        · unfold FS.pathExists
          rw [FS.get_removePath_ne _ _ _ (string_ne_append_info _),
            FS.get_removePath_same]
          rfl
        · unfold FS.pathExists
          rw [FS.get_removePath_same]
          rfl
      · rw [Bool.not_eq_true] at hf
        refine ⟨FS.removePath fs (localpath root path ++ ".info"), ?_, ?_, ?_⟩
        · simp [hd, hf]
        · unfold FS.pathExists
          rw [FS.get_removePath_ne _ _ _ (string_ne_append_info _),
            get_none_of_not_dir_file fs _ hd hf]
          rfl
        · unfold FS.pathExists
          rw [FS.get_removePath_same]
          rfl
  · intro h hcont hdf
    by_cases hd : FS.isdir fs (localpath root path) = true
    · simp [LocalFiles.remove, h, hd, osDelete, hcont]
    · rw [Bool.not_eq_true] at hd
      rcases hdf with hdf | hf
      · rw [hd] at hdf; cases hdf
      · simp [LocalFiles.remove, h, hd, hf, osDelete, hcont]

/-- C4 witness: a concrete removal whose primary deletion fails — the
`OSError` is caught (reported, not raised) and the call returns with the
filesystem unchanged. -/
theorem c4_remove_single_try_block_witness :
    LocalFiles.remove "r"
      [("r/d/f", .file (.raw "x")), ("r/d/f.info", .infoFile FileInfo.empty)]
      ["r/d/f"] ["d", "f"] =
      .ok ([("r/d/f", .file (.raw "x")),
        ("r/d/f.info", .infoFile FileInfo.empty)], true) :=
  (c4_remove_single_try_block "r"
    [("r/d/f", .file (.raw "x")), ("r/d/f.info", .infoFile FileInfo.empty)]
    ["r/d/f"] ["d", "f"]).2.2 rfl (by decide) (Or.inr rfl)

/-- C4 counterexample: at this concrete input the primary-artifact
deletion fails with `OSError`, and after the call the sidecar STILL
exists, refuting "a failure deleting the primary artifact does not prevent
deletion of the sidecar". -/
theorem c4_claim_false_sidecar_survives :
    LocalFiles.remove "r"
      [("r/d/f", .file (.raw "x")), ("r/d/f.info", .infoFile FileInfo.empty)]
      ["r/d/f"] ["d", "f"] =
      .ok ([("r/d/f", .file (.raw "x")),
        ("r/d/f.info", .infoFile FileInfo.empty)], true) ∧
    FS.pathExists
      [("r/d/f", .file (.raw "x")), ("r/d/f.info", .infoFile FileInfo.empty)]
      "r/d/f.info" = true :=
  ⟨rfl, rfl⟩

/-- C7 (corrected): `localpath_download` always reports the canonical
local path, and a second call is a no-op (same path, unchanged filesystem,
no further fetch and hence no further progress callbacks) PROVIDED the
first call left the local path existing — which the source only guarantees
when no extraction was requested or the compression value was recognized. -/
theorem c7_lpd_idempotent_when_target_exists (root : String) (fs : FS)
    (path : Path) (i : FileInfo) (b : String) (ok extract : Bool)
    (h : FS.pathExists
      (LocalFiles.localpath_download root fs path i b ok extract).fs
      (localpath root path) = true) :
    (LocalFiles.localpath_download root fs path i b ok extract).pathname =
      localpath root path ∧
    LocalFiles.localpath_download root
      (LocalFiles.localpath_download root fs path i b ok extract).fs
      path i b ok extract =
      ⟨localpath root path,
        (LocalFiles.localpath_download root fs path i b ok extract).fs,
        none, 0⟩ := by
  constructor
  · unfold LocalFiles.localpath_download
    dsimp only
    split <;> rfl
  · generalize (LocalFiles.localpath_download root fs path i b ok extract).fs
      = fs1 at h
    simp [LocalFiles.localpath_download, h]

/-- C7 witness: a concrete uncompressed download; the second call returns
the same path with zero fetches. -/
theorem c7_lpd_idempotent_when_target_exists_witness :
    (LocalFiles.localpath_download "r" [] ["d", "f"] FileInfo.empty "B"
      true true).pathname = localpath "r" ["d", "f"] ∧
    LocalFiles.localpath_download "r"
      (LocalFiles.localpath_download "r" [] ["d", "f"] FileInfo.empty "B"
        true true).fs
      ["d", "f"] FileInfo.empty "B" true true =
      ⟨localpath "r" ["d", "f"],
        (LocalFiles.localpath_download "r" [] ["d", "f"] FileInfo.empty "B"
          true true).fs, none, 0⟩ :=
  c7_lpd_idempotent_when_target_exists "r" [] ["d", "f"] FileInfo.empty "B"
    true true rfl

/-- C7 counterexample: with an unrecognized `compression` value the first
call completes without error yet leaves no file at the local path, so the
second call fetches again (`fetches = 1`), refuting "calling it a second
time ... does not invoke the download operation again". -/
theorem c7_claim_false_second_call_downloads_again :
    (LocalFiles.localpath_download "r" [] ["d", "f"]
      { compression := some "zip" } "B" true true).err = none ∧
    (LocalFiles.localpath_download "r"
      (LocalFiles.localpath_download "r" [] ["d", "f"]
        { compression := some "zip" } "B" true true).fs
      ["d", "f"] { compression := some "zip" } "B" true true).fetches = 1 :=
  ⟨rfl, rfl⟩

/-- C3 (corrected): `needs_update` returns true when the local sidecar is
missing (`FileNotFoundError`) or when the local or the remote `datetime`
KEY is absent (`KeyError`; the remote case is only reached once the local
datetime has parsed), and otherwise compares the two datetimes truncated
to whole seconds, returning true exactly when the remote one is strictly
later.  But — contrary to the claim — a malformed local sidecar (JSON
decode failure) or a present-but-unparsable datetime string raises
`ValueError` out of `needs_update` instead of yielding true: only
`FileNotFoundError` and `KeyError` are caught. -/
theorem c3_needs_update_catches_notfound_and_keyerror_only
    (remote linfo : FileInfo) (lv rv : String) (lt rt : Nat) :
    (needs_update (.error .fileNotFound) remote = .ok true) ∧
    (linfo.datetime = none → needs_update (.ok linfo) remote = .ok true) ∧
    (linfo.datetime = some lv → parseDt lv = .ok lt → remote.datetime = none →
      needs_update (.ok linfo) remote = .ok true) ∧
    (linfo.datetime = some lv → parseDt lv = .ok lt →
      remote.datetime = some rv → parseDt rv = .ok rt →
      needs_update (.ok linfo) remote = .ok (decide (rt > lt))) ∧
    (needs_update (.error .valueError) remote = .error .valueError) ∧
    (linfo.datetime = some lv → parseDt lv = .error .valueError →
      needs_update (.ok linfo) remote = .error .valueError) := by
  refine ⟨rfl, ?_, ?_, ?_, rfl, ?_⟩
  · intro h
    simp [needs_update, needs_update_body, getDatetimeKey, h, Except.bind]
  · intro h1 h2 h3
    simp [needs_update, needs_update_body, getDatetimeKey, h1, h2, h3,
      Except.bind]
  · intro h1 h2 h3 h4
    simp [needs_update, needs_update_body, getDatetimeKey, h1, h2, h3, h4,
      Except.bind]
  · intro h1 h2
    simp [needs_update, needs_update_body, getDatetimeKey, h1, h2, Except.bind]

/-- C3 witness: concrete sidecars with parsable datetimes, the remote one
strictly later. -/
theorem c3_needs_update_witness :
    needs_update (.ok { datetime := some "2016-10-10 11:39:07" })
      { datetime := some "2017-01-01 00:00:00" } = .ok true := by
  have h := (c3_needs_update_catches_notfound_and_keyerror_only
    { datetime := some "2017-01-01 00:00:00" }
    { datetime := some "2016-10-10 11:39:07" }
    "2016-10-10 11:39:07" "2017-01-01 00:00:00"
    72488432347 72498672000).2.2.2.1 rfl rfl rfl rfl
  simpa using h

/-- C3 counterexample: a malformed local sidecar (its bytes are not JSON)
makes `needs_update` raise `ValueError` instead of returning true,
refuting "any failure to retrieve or interpret the local info (including
NotFound and malformed sidecar content) also yields true rather than
raising". -/
theorem c3_claim_false_malformed_sidecar_raises :
    LocalFiles.needs_update "r" [("r/d/f.info", .file (.raw "not json"))]
      ["d", "f"] { datetime := some "2017-01-01 00:00:00" } =
      .error .valueError :=
  rfl

/-- C6 (confirmed): loading the catalog snapshot is idempotent per
instance.  From the unloaded state one `__INFO__` GET is issued and the
state becomes loaded (status 200) or absent (any other status); from any
other state no request is issued and the state is unchanged, so a second
call after the first — whatever the starting state — issues no request:
the absent sentinel is never retried. -/
theorem c6_snapshot_load_idempotent (srv : Server) (st : InfoState) :
    (_download_server_info .unloaded srv).2 = 1 ∧
    (srv.infoResource = none → (_download_server_info .unloaded srv).1 = .absent) ∧
    (∀ pairs, srv.infoResource = some pairs →
      (_download_server_info .unloaded srv).1 = .loaded (dictOf pairs)) ∧
    (st ≠ .unloaded → _download_server_info st srv = (st, 0)) ∧
    _download_server_info (_download_server_info st srv).1 srv =
      ((_download_server_info st srv).1, 0) := by
  refine ⟨?_, ?_, ?_, ?_, ?_⟩
  · cases h : srv.infoResource <;> simp [_download_server_info, h]
  · intro h; simp [_download_server_info, h]
  · intro pairs h; simp [_download_server_info, h]
  · intro h
    cases st with
    | unloaded => exact absurd rfl h
    | absent => rfl
    | loaded m => rfl
  · cases st with
    | unloaded => cases h : srv.infoResource <;> simp [_download_server_info, h]
    | absent => rfl
    | loaded m => rfl

/-- C6 witness: a second call on the absent sentinel issues no request and
leaves the sentinel in place. -/
theorem c6_snapshot_load_idempotent_witness :
    _download_server_info .absent ⟨[], none⟩ = (.absent, 0) :=
  (c6_snapshot_load_idempotent ⟨[], none⟩ .absent).2.2.2.1 (by decide)

/-- The source's per-entry match test coincides with the spec's §4.3
selection predicate. -/
theorem searchMatch_eq_spec (p : Path) (i : FileInfo) (ss : List String)
    (cs it itl inm : Bool) :
    searchMatch p i ss cs it itl inm = specSearchSelects (p, i) ss cs it itl inm := by
  cases cs <;> rfl

/-- C8 (confirmed): `_search` returns exactly the paths of the entries
selected by the spec's predicate — search text concatenated per flag from
space-joined tags, title and space-joined segments, lowercasing applied to
both sides unless case-sensitive, every query substring required to occur
contiguously — in the input mapping's iteration order. -/
theorem c8_search_filters_by_spec_predicate (si : List (Path × FileInfo))
    (ss : List String) (cs it itl inm : Bool) :
    _search si ss cs it itl inm =
      (si.filter fun e => specSearchSelects e ss cs it itl inm).map Prod.fst := by
  induction si with
  | nil => rfl
  | cons e rest ih =>
    obtain ⟨p, i⟩ := e
    simp only [_search, searchMatch_eq_spec]
    by_cases h : specSearchSelects (p, i) ss cs it itl inm = true
    · simp [List.filter, h, ih]
    · rw [Bool.not_eq_true] at h
      simp [List.filter, h, ih]

/-- The source's `_is_prefix` coincides with the spec's segment-wise
prefix predicate. -/
theorem is_prefix_eq_specSegPrefix (pref whole : Path) :
    _is_prefix pref whole = specSegPrefix pref whole := by
  induction pref generalizing whole with
  | nil => cases whole <;> simp [ _is_prefix, specSegPrefix]
  | cons p ps ih =>
    cases whole with
    | nil => simp [ _is_prefix, specSegPrefix]
    | cons w ws =>
      simp only [ _is_prefix, specSegPrefix, List.length_cons, List.zip_cons_cons,
        List.all_cons, List.take_succ_cons] at ih ⊢
      by_cases hl : ps.length > ws.length
      · have h1 : ¬ ps.length + 1 ≤ ws.length + 1 := by omega
        simp [hl, h1]
      · have hnl : ¬ ws.length < ps.length := by omega
        have h2 : ps.length ≤ ws.length := by omega
        have h3 : ps.length + 1 ≤ ws.length + 1 := by omega
        rw [if_neg (by omega : ¬ (ps.length + 1 > ws.length + 1))]
        have ih' := ih ws
        rw [if_neg (by simpa using hnl)] at ih'
        rw [ih']
        have hc : (w :: List.take ps.length ws == p :: ps) =
            (w == p && (List.take ps.length ws == ps)) := rfl
        rw [hc]
        have hwp : (w == p) = (p == w) := by
          cases hpw : (p == w)
          · simp only [beq_eq_false_iff_ne] at hpw
            simp [beq_eq_false_iff_ne, Ne.symm hpw]
          · simp only [beq_iff_eq] at hpw
            simp [hpw]
        rw [hwp]
        simp [h2, h3, Bool.and_left_comm]

/-- On a loaded non-empty snapshot, `listfiles` answers by filtering the
snapshot keys with the segment-wise prefix predicate, issues no request,
leaves the state unchanged and ignores `recursive`. -/
theorem listfiles_loaded_ne (srv : Server) (m : List (Path × FileInfo))
    (args : Path) (recursive : Bool) (h : m ≠ []) :
    ServerFiles.listfiles (.loaded m) srv args recursive =
      ((m.map Prod.fst).filter (fun a => specSegPrefix args a), .loaded m, 0) := by
  cases m with
  | nil => exact absurd rfl h
  | cons kv rest =>
    show ((((kv :: rest)).map Prod.fst).filter (fun a => _is_prefix args a),
      InfoState.loaded (kv :: rest), 0) = _
    simp only [is_prefix_eq_specSegPrefix]

/-- On a loaded non-empty snapshot, `info` answers `dict.get(path, {})`
with no request and unchanged state. -/
theorem info_loaded_ne (srv : Server) (m : List (Path × FileInfo)) (p : Path)
    (h : m ≠ []) :
    ServerFiles.info (.loaded m) srv p =
      ((dictGet m p).getD .empty, .loaded m, 0) := by
  cases m with
  | nil => exact absurd rfl h
  | cons kv rest => rfl

/-- C5 (corrected): with a loaded NON-EMPTY snapshot, `listfiles` returns
exactly the snapshot keys of which the argument is a segment-wise prefix,
issues no per-directory HTTP request and ignores the `recursive` flag.
A loaded EMPTY snapshot, contrary to the claim, falls through the `if
self._info:` truthiness test and scrapes the server over HTTP. -/
theorem c5_listfiles_snapshot_prefix_filter (srv : Server)
    (m : List (Path × FileInfo)) (args : Path) (recursive : Bool)
    (h : m ≠ []) :
    ServerFiles.listfiles (.loaded m) srv args recursive =
      ((m.map Prod.fst).filter (fun a => specSegPrefix args a), .loaded m, 0) :=
  listfiles_loaded_ne srv m args recursive h

/-- C5 witness: a concrete two-entry snapshot filtered by the prefix
`["domain1"]`, with `recursive := false` ignored. -/
theorem c5_listfiles_snapshot_prefix_filter_witness :
    ServerFiles.listfiles
      (.loaded [(["domain1", "a"], FileInfo.empty), (["domain1", "b"], FileInfo.empty)])
      ⟨[], none⟩ ["domain1"] false =
      (([(["domain1", "a"], FileInfo.empty),
        (["domain1", "b"], FileInfo.empty)].map Prod.fst).filter
        (fun a => specSegPrefix ["domain1"] a),
        .loaded [(["domain1", "a"], FileInfo.empty),
          (["domain1", "b"], FileInfo.empty)], 0) :=
  c5_listfiles_snapshot_prefix_filter ⟨[], none⟩
    [(["domain1", "a"], FileInfo.empty), (["domain1", "b"], FileInfo.empty)]
    ["domain1"] false (List.cons_ne_nil _ _)

/-- C5 counterexample: with a loaded EMPTY snapshot the call scrapes the
server (2 HTTP requests on this concrete tree) and returns the scraped
files rather than the snapshot's (empty) key filter — refuting "for every
... loaded (including a loaded empty mapping) ... performs no
per-directory HTTP listing". -/
theorem c5_claim_false_empty_snapshot_scrapes :
    (ServerFiles.listfiles (.loaded []) ⟨[.dir "d" [.file "x" none]], none⟩
      [] true).1 = [["d", "x"]] ∧
    (ServerFiles.listfiles (.loaded []) ⟨[.dir "d" [.file "x" none]], none⟩
      [] true).2.2 = 2 := by
  constructor <;>
    (simp [ServerFiles.listfiles, _download_server_info, navigate, findDir,
      walkDir, walkSubdirs, dirFiles, linksOf, keepLink]
     decide)

/-- C10 (confirmed): from an unloaded or absent snapshot state, `search`
assigns the full catalog built by `allinfo()` to the snapshot field; on
that state — when the catalog is non-empty — every subsequent `listfiles`
answers by prefix-filtering the catalog keys and every `info` answers by
catalog lookup, both issuing zero HTTP requests. -/
theorem c10_search_repoints_snapshot (srv : Server) (st : InfoState)
    (ss : List String) (cs it itl inm : Bool)
    (h : st = .unloaded ∨ st = .absent) :
    (ServerFiles.search st srv ss cs it itl inm).2.1 =
      .loaded (ServerFiles.allinfo st srv [] true).1 ∧
    (∀ args recursive, (ServerFiles.allinfo st srv [] true).1 ≠ [] →
      ServerFiles.listfiles (.loaded (ServerFiles.allinfo st srv [] true).1)
        srv args recursive =
        (((ServerFiles.allinfo st srv [] true).1.map Prod.fst).filter
          (fun a => specSegPrefix args a),
          .loaded (ServerFiles.allinfo st srv [] true).1, 0)) ∧
    (∀ p, (ServerFiles.allinfo st srv [] true).1 ≠ [] →
      ServerFiles.info (.loaded (ServerFiles.allinfo st srv [] true).1) srv p =
        ((dictGet (ServerFiles.allinfo st srv [] true).1 p).getD .empty,
          .loaded (ServerFiles.allinfo st srv [] true).1, 0)) := by
  rcases h with rfl | rfl <;>
    exact ⟨rfl,
      fun args recursive hne => listfiles_loaded_ne srv _ args recursive hne,
      fun p hne => info_loaded_ne srv _ p hne⟩

/-- C10 witness: a concrete server whose catalog resource holds one entry;
after `search` from the unloaded state, `info` answers from the rebuilt
catalog with zero requests. -/
theorem c10_search_repoints_snapshot_witness :
    (ServerFiles.search .unloaded ⟨[], some [(["x"], FileInfo.empty)]⟩
      ["x"] false true true true).2.1 =
      .loaded (ServerFiles.allinfo .unloaded
        ⟨[], some [(["x"], FileInfo.empty)]⟩ [] true).1 ∧
    ServerFiles.info
      (.loaded (ServerFiles.allinfo .unloaded
        ⟨[], some [(["x"], FileInfo.empty)]⟩ [] true).1)
      ⟨[], some [(["x"], FileInfo.empty)]⟩ ["x"] =
      ((dictGet (ServerFiles.allinfo .unloaded
        ⟨[], some [(["x"], FileInfo.empty)]⟩ [] true).1 ["x"]).getD .empty,
        .loaded (ServerFiles.allinfo .unloaded
          ⟨[], some [(["x"], FileInfo.empty)]⟩ [] true).1, 0) :=
  ⟨(c10_search_repoints_snapshot ⟨[], some [(["x"], FileInfo.empty)]⟩
      .unloaded ["x"] false true true true (Or.inl rfl)).1,
    (c10_search_repoints_snapshot ⟨[], some [(["x"], FileInfo.empty)]⟩
      .unloaded ["x"] false true true true (Or.inl rfl)).2.2 ["x"] (by decide)⟩

/-! ## Invariants of the download progress loop (claim C2) -/

/-- The final `lastchunkreport` exceeds its start by 100 per callback. -/
theorem reportLoop_fst (r s : Nat) : ∀ l : Nat,
    (reportLoop r s l).1 = l + 100 * (reportLoop r s l).2 := by
  refine reportLoop.induct r s
    (fun l => (reportLoop r s l).1 = l + 100 * (reportLoop r s l).2) ?_ ?_
  · intro x h ih
    rw [reportLoop, dif_pos h]
    dsimp only
    omega
  · intro x h
    rw [reportLoop, dif_neg h]
    dsimp only
    omega

/-- Loop postcondition: on exit the guard fails. -/
theorem reportLoop_post (r s : Nat) (hs : s ≠ 0) : ∀ l : Nat,
    ¬ (s * ((reportLoop r s l).1 + 100) < 10000 * r) := by
  refine reportLoop.induct r s
    (fun l => ¬ (s * ((reportLoop r s l).1 + 100) < 10000 * r)) ?_ ?_
  · intro x h ih
    rw [reportLoop, dif_pos h]
    exact ih
  · intro x h
    rw [reportLoop, dif_neg h]
    dsimp only
    intro hc
    exact h ⟨hs, hc⟩

/-- If the loop ran at all, the guard held at its last increment. -/
theorem reportLoop_lower (r s : Nat) : ∀ l : Nat,
    (reportLoop r s l).2 = 0 ∨ s * (reportLoop r s l).1 < 10000 * r := by
  refine reportLoop.induct r s
    (fun l => (reportLoop r s l).2 = 0 ∨ s * (reportLoop r s l).1 < 10000 * r) ?_ ?_
  · intro x h ih
    rw [reportLoop, dif_pos h]
    dsimp only
    rcases ih with h0 | hlt
    · right
      have hf := reportLoop_fst r s (x + 100)
      rw [h0] at hf
      simp only [Nat.mul_zero, Nat.add_zero] at hf
      rw [hf]
      exact h.2
    · right; exact hlt
  · intro x h
    rw [reportLoop, dif_neg h]
    left
    rfl

/-- A falsy `size` (0) makes the report loop a no-op. -/
theorem reportLoop_zero (r l : Nat) : reportLoop r 0 l = (l, 0) := by
  rw [reportLoop, dif_neg]
  simp

/-- `readb` accumulates the chunk sizes. -/
theorem streamChunks_readb (cs : List Nat) (sz : Option Nat) : ∀ r l : Nat,
    (streamChunks cs sz r l).1 = r + cs.sum := by
  induction cs with
  | nil => intro r l; simp [streamChunks]
  | cons c rest ih =>
    intro r l
    simp only [streamChunks, List.sum_cons]
    rw [ih]
    omega

/-- The final `lastchunkreport` exceeds its start by 100 per callback,
lifted over the whole chunk stream. -/
theorem streamChunks_lcr (cs : List Nat) (sz : Option Nat) : ∀ r l : Nat,
    (streamChunks cs sz r l).2.1 = l + 100 * (streamChunks cs sz r l).2.2 := by
  induction cs with
  | nil => intro r l; simp [streamChunks]
  | cons c rest ih =>
    intro r l
    simp only [streamChunks]
    have h1 := reportLoop_fst (r + c) (sz.getD 0) l
    have h2 := ih (r + c) ((reportLoop (r + c) (sz.getD 0) l).1)
    omega

/-- After the last chunk the report-loop guard fails at the final
`readb`. -/
theorem streamChunks_post (s : Nat) (hs : s ≠ 0) : ∀ (cs : List Nat), cs ≠ [] →
    ∀ r l : Nat,
    ¬ (s * ((streamChunks cs (some s) r l).2.1 + 100) <
      10000 * (streamChunks cs (some s) r l).1) := by
  intro cs
  induction cs with
  | nil => intro hcs; exact absurd rfl hcs
  | cons c rest ih =>
    intro _ r l
    cases rest with
    | nil =>
      simp only [streamChunks]
      have hp := reportLoop_post (r + c) s hs l
      simpa using hp
    | cons c2 rest2 =>
      simp only [streamChunks]
      exact ih (by simp) (r + c) ((reportLoop (r + c) ((some s).getD 0) l).1)

/-- If any callback fired, the guard held at the last increment (at a
`readb` no larger than the final one). -/
theorem streamChunks_lower (s : Nat) : ∀ (cs : List Nat) (r l : Nat),
    ((streamChunks cs (some s) r l).2.2 = 0 ∧
      (streamChunks cs (some s) r l).2.1 = l) ∨
    s * (streamChunks cs (some s) r l).2.1 <
      10000 * (streamChunks cs (some s) r l).1 := by
  intro cs
  induction cs with
  | nil => intro r l; left; exact ⟨rfl, rfl⟩
  | cons c rest ih =>
    intro r l
    simp only [streamChunks]
    have hr := streamChunks_readb rest (some s) (r + c)
      ((reportLoop (r + c) ((some s).getD 0) l).1)
    rcases ih (r + c) ((reportLoop (r + c) ((some s).getD 0) l).1) with ⟨hk, hl⟩ | hlt
    · rcases reportLoop_lower (r + c) s l with h0 | hlt2
      · left
        constructor
        · simp only [Option.getD] at hk ⊢
          omega
        · have hf := reportLoop_fst (r + c) s l
          simp only [Option.getD] at hl ⊢
          omega
      · right
        simp only [Option.getD] at hl hr ⊢
        have hll : s * (streamChunks rest (some s) (r + c)
            ((reportLoop (r + c) s l).1)).2.1 = s * (reportLoop (r + c) s l).1 := by
          rw [hl]
        omega
    · right
      exact hlt

/-- With no usable content length the streaming loop fires no callback. -/
theorem streamChunks_none (cs : List Nat) : ∀ r l : Nat,
    streamChunks cs none r l = (r + cs.sum, l, 0) := by
  induction cs with
  | nil => intro r l; simp [streamChunks]
  | cons c rest ih =>
    intro r l
    simp only [streamChunks, Option.getD, reportLoop_zero, ih, List.sum_cons]
    refine Prod.ext ?_ rfl
    simp
    omega

/-- A `content-length` of 0 behaves like an unknown length in the loop. -/
theorem streamChunks_some_zero (cs : List Nat) : ∀ r l : Nat,
    streamChunks cs (some 0) r l = (r + cs.sum, l, 0) := by
  induction cs with
  | nil => intro r l; simp [streamChunks]
  | cons c rest ih =>
    intro r l
    simp only [streamChunks, Option.getD, reportLoop_zero, ih, List.sum_cons]
    refine Prod.ext ?_ rfl
    simp
    omega

/-- C2 (confirmed): a completed `ServerFiles.download` with a callback
invokes it exactly 100 times — with a truthy consistent content length the
streaming loop fires once per additional 1% (99 times in total) and the
unconditional final invocation adds one; with the header absent (or `0`,
which is falsy after `int()`) the loop fires none, the 99 post-body
invocations fire, and the final invocation adds one.  "Completed" is the
consistency hypothesis: when a content length was declared, the received
bytes sum to it. -/
theorem c2_callback_invoked_exactly_100_times (chunks : List Nat)
    (size : Option Nat) (h : ∀ s, size = some s → chunks.sum = s) :
    downloadCallbacks chunks size = 100 := by
  cases size with
  | none =>
    simp [downloadCallbacks, streamChunks_none, sizeTruthy]
  | some s =>
    by_cases hs : s = 0
    · subst hs
      simp [downloadCallbacks, streamChunks_some_zero, sizeTruthy]
    · have hsum : chunks.sum = s := h s rfl
      have hne : chunks ≠ [] := by
        intro hc
        rw [hc] at hsum
        simp at hsum
        exact hs hsum.symm
      have hR : (streamChunks chunks (some s) 0 1).1 = s := by
        rw [streamChunks_readb]
        omega
      have hL := streamChunks_lcr chunks (some s) 0 1
      have hpost := streamChunks_post s hs chunks hne 0 1
      rw [hR] at hpost
      have h9900 : 10000 ≤ (streamChunks chunks (some s) 0 1).2.1 + 100 := by
        have hle : 10000 * s ≤ s * ((streamChunks chunks (some s) 0 1).2.1 + 100) :=
          Nat.le_of_not_lt hpost
        rw [Nat.mul_comm 10000 s] at hle
        exact Nat.le_of_mul_le_mul_left hle (Nat.pos_of_ne_zero hs)
      have hlt10000 : (streamChunks chunks (some s) 0 1).2.1 < 10000 := by
        rcases streamChunks_lower s chunks 0 1 with ⟨hk, hl⟩ | hlt
        · rw [hl] at h9900
          omega
        · rw [hR] at hlt
          rw [Nat.mul_comm 10000 s] at hlt
          exact Nat.lt_of_mul_lt_mul_left hlt
      have hK : (streamChunks chunks (some s) 0 1).2.2 = 99 := by omega
      simp [downloadCallbacks, hK, sizeTruthy, hs]

/-- C2 witness: a consistent two-chunk download with a known length. -/
theorem c2_callback_invoked_exactly_100_times_witness :
    downloadCallbacks [8192, 5000] (some 13192) = 100 :=
  c2_callback_invoked_exactly_100_times [8192, 5000] (some 13192)
    (fun s hs => by cases hs; rfl)

end Serverfiles
